import Mathlib

/-!
Verification of the spatial-index core of the MinorOne real-estate program
(`src/project.cpp`). The C++ `double` coordinates and money/area amounts are
embedded as rationals (all the arithmetic the index performs on them is exact
addition, subtraction, halving and comparison), `int` fields as integers.
`RTree::calculateDistance` stores the real square root into an `int`, i.e.
truncates it toward zero; since the radicand is nonnegative this is the floor
of the square root, embedded as `Nat.sqrt` of the floor of the rational
radicand and proved below to coincide with `⌊Real.sqrt _⌋`.
-/

/-- Embeds `struct Rectangle` (project.cpp lines 10-19): an axis-aligned
bounding box with `double` corners. -/
structure Rectangle where
  x_min : ℚ
  y_min : ℚ
  x_max : ℚ
  y_max : ℚ
deriving DecidableEq, Repr

/-- Embeds `Rectangle::intersects` (line 16-18):
`!(x_min > other.x_max || x_max < other.x_min || y_min > other.y_max || y_max < other.y_min)`. -/
def Rectangle.intersects (a other : Rectangle) : Bool :=
  !(decide (a.x_min > other.x_max) || decide (a.x_max < other.x_min) ||
    decide (a.y_min > other.y_max) || decide (a.y_max < other.y_min))

/-- Embeds `class Property` (lines 22-32): a listing record with descriptive
attributes and one bounding box. -/
structure Property where
  location : String
  price : ℚ
  area : ℚ
  bedrooms : ℤ
  bbox : Rectangle
deriving DecidableEq, Repr

/-- Embeds `class RTreeNode` (lines 35-81): a node carrying a `children`
vector (used by internal nodes), a `leaf_properties` vector (used by leaves),
a `bounding_box` and an `is_leaf` tag. -/
inductive RTreeNode : Type where
  | mk (children : List RTreeNode) (leaf_properties : List Property)
       (bounding_box : Rectangle) (is_leaf : Bool) : RTreeNode
deriving Repr

/-- Field accessor for `RTreeNode::children`. -/
def RTreeNode.children : RTreeNode → List RTreeNode
  | .mk c _ _ _ => c

/-- Field accessor for `RTreeNode::leaf_properties`. -/
def RTreeNode.leaf_properties : RTreeNode → List Property
  | .mk _ p _ _ => p

/-- Field accessor for `RTreeNode::bounding_box`. -/
def RTreeNode.bounding_box : RTreeNode → Rectangle
  | .mk _ _ b _ => b

/-- Field accessor for `RTreeNode::is_leaf`. -/
def RTreeNode.is_leaf : RTreeNode → Bool
  | .mk _ _ _ l => l

/-- One min/max folding step of `RTreeNode::updateBoundingBox` (lines 63-77):
extends the running box `r` with the box `b`. -/
def foldBox (r b : Rectangle) : Rectangle :=
  ⟨min r.x_min b.x_min, min r.y_min b.y_min, max r.x_max b.x_max, max r.y_max b.y_max⟩

/-- Embeds `RTreeNode::updateBoundingBox` (lines 56-80): if both containers are
empty, does nothing; otherwise folds the children's (internal case) or the
listings' (leaf case) boxes into the node's current bounding box. -/
def RTreeNode.updateBoundingBox : RTreeNode → RTreeNode
  | .mk children props bbox leaf =>
    if children.isEmpty && props.isEmpty then .mk children props bbox leaf
    else
      let newBox :=
        if leaf then props.foldl (fun r p => foldBox r p.bbox) bbox
        else children.foldl (fun r c => foldBox r c.bounding_box) bbox
      .mk children props newBox leaf

/-- Embeds `RTreeNode::insert` (lines 46-53): a leaf appends the listing to
`leaf_properties` (and does NOT touch its bounding box); an internal node
appends a fresh internal child wrapping the listing's bbox and then calls
`updateBoundingBox`. -/
def RTreeNode.insert : RTreeNode → Property → RTreeNode
  | .mk children props bbox leaf, child =>
    if leaf then .mk children (props ++ [child]) bbox leaf
    else
      RTreeNode.updateBoundingBox
        (.mk (children ++ [.mk [] [] child.bbox false]) props bbox leaf)

mutual

/-- Embeds `RTree::queryRecursive` (lines 126-140): prune when the node's
bounding box misses the range; at a leaf push every listing whose bbox
intersects the range, in stored order; at an internal node recurse into the
children in order. `results` is the accumulator vector passed by reference in
the C++. -/
def RTreeNode.queryRecursive : RTreeNode → Rectangle → List Property → List Property
  | .mk children props bbox leaf, range, results =>
    if !(bbox.intersects range) then results
    else if leaf then
      props.foldl (fun acc p => if range.intersects p.bbox then acc ++ [p] else acc) results
    else
      RTreeNode.queryRecursiveList children range results

/-- The child loop of `RTree::queryRecursive` (lines 136-138). -/
def RTreeNode.queryRecursiveList : List RTreeNode → Rectangle → List Property → List Property
  | [], _, results => results
  | c :: cs, range, results =>
    RTreeNode.queryRecursiveList cs range (c.queryRecursive range results)

end

/-- Embeds `RTree::calculateDistance` (lines 143-146):
`int distance = sqrt(pow(x2-x1,2) + pow(y2-y1,2)); return distance;`
i.e. the Euclidean distance truncated toward zero to an integer. The radicand
is nonnegative, so truncation toward zero is the floor of the square root,
which for a rational radicand `q` equals `Nat.sqrt ⌊q⌋` (theorem
`distance_truncates` below proves the agreement with `⌊Real.sqrt _⌋`). -/
def calculateDistance (x1 y1 x2 y2 : ℚ) : ℤ :=
  (Nat.sqrt ((x2 - x1) ^ 2 + (y2 - y1) ^ 2).floor.toNat : ℤ)

/-- Embeds `class RTree` (lines 84-147): owns the single root node. -/
structure RTree where
  root : RTreeNode

/-- Embeds the `RTree` constructor (lines 88-90): the root is a Leaf with the
fixed initial bounding box (0,0)-(100,100). -/
def RTree.new : RTree :=
  ⟨.mk [] [] ⟨0, 0, 100, 100⟩ true⟩

/-- Embeds `RTree::insert` (lines 93-95): delegates to the root node. -/
def RTree.insert (t : RTree) (prop : Property) : RTree :=
  ⟨t.root.insert prop⟩

/-- Embeds `RTree::query` (lines 98-102): runs `queryRecursive` from the root
with an empty results vector. -/
def RTree.query (t : RTree) (range : Rectangle) : List Property :=
  t.root.queryRecursive range []

/-- Embeds `RTree::queryNearLocation` (lines 105-122): queries the square
around (x,y) of half-side `distance_km`, then pushes each candidate whose
truncated centroid distance is within `distance_km` and whose price/area/
bedrooms pass the thresholds. -/
def RTree.queryNearLocation (t : RTree) (x y distance_km max_price min_area : ℚ)
    (min_bedrooms : ℤ) : List Property :=
  let search_area : Rectangle :=
    ⟨x - distance_km, y - distance_km, x + distance_km, y + distance_km⟩
  let properties := t.query search_area
  properties.foldl
    (fun results prop =>
      let dist := calculateDistance x y ((prop.bbox.x_min + prop.bbox.x_max) / 2)
        ((prop.bbox.y_min + prop.bbox.y_max) / 2)
      if (dist : ℚ) ≤ distance_km ∧ prop.price ≤ max_price ∧
          prop.area ≥ min_area ∧ prop.bedrooms ≥ min_bedrooms then
        results ++ [prop]
      else results)
    []

/-- The sequence of index states: inserting a list of listings, in order, into
a fresh `RTree`. -/
def insertAll (ls : List Property) : RTree :=
  ls.foldl RTree.insert RTree.new

/-! ### Structural lemmas -/

/-- A fold that pushes the elements satisfying a decidable predicate onto an
accumulator list is the accumulator followed by the filtered list. -/
theorem foldl_push_eq_filter {α : Type} (P : α → Prop) [DecidablePred P] :
    ∀ (l acc : List α),
      l.foldl (fun r a => if P a then r ++ [a] else r) acc
        = acc ++ l.filter (fun a => decide (P a))
  | [], acc => by simp
  | a :: l, acc => by
    by_cases h : P a <;>
      simp [h, foldl_push_eq_filter P l, List.append_assoc]

/-- Boolean-predicate version of `foldl_push_eq_filter`, matching the shape of
the leaf loop in `queryRecursive`. -/
theorem foldl_push_eq_filterB {α : Type} (f : α → Bool) :
    ∀ (l acc : List α),
      l.foldl (fun r a => if f a then r ++ [a] else r) acc = acc ++ l.filter f
  | [], acc => by simp
  | a :: l, acc => by
    cases h : f a <;>
      simp [h, foldl_push_eq_filterB f l, List.append_assoc]

/-- Folding `RTree.insert` over a tree whose root is a leaf appends all the
listings, in order, to the root's listing sequence and changes nothing else. -/
theorem foldl_insert_leaf :
    ∀ (ls acc : List Property) (box : Rectangle),
      List.foldl RTree.insert ⟨.mk [] acc box true⟩ ls = ⟨.mk [] (acc ++ ls) box true⟩
  | [], acc, box => by simp
  | l :: ls, acc, box => by
    have step : RTree.insert ⟨.mk [] acc box true⟩ l = ⟨.mk [] (acc ++ [l]) box true⟩ := by
      simp [RTree.insert, RTreeNode.insert]
    simp [List.foldl, step, foldl_insert_leaf ls (acc ++ [l]) box]

/-- Inserting a list of listings into a fresh index yields the leaf root with
exactly those listings, under the fixed initial box. -/
theorem insertAll_eq (ls : List Property) :
    insertAll ls = ⟨.mk [] ls ⟨0, 0, 100, 100⟩ true⟩ := by
  have h := foldl_insert_leaf ls [] ⟨0, 0, 100, 100⟩
  simpa [insertAll, RTree.new] using h

/-- A range query on a tree whose root is a leaf prunes on the root's bounding
box, and otherwise filters the stored listings in order. -/
theorem query_leaf (ls : List Property) (box range : Rectangle) :
    RTree.query ⟨.mk [] ls box true⟩ range
      = if box.intersects range then ls.filter (fun l => range.intersects l.bbox) else [] := by
  unfold RTree.query RTreeNode.queryRecursive
  cases h : box.intersects range with
  | false => simp [RTreeNode.bounding_box, h]
  | true => simp [RTreeNode.bounding_box, h, foldl_push_eq_filterB]

/-- `queryNearLocation` is the range query on the square around the point,
filtered by the truncated-distance and attribute thresholds, in query order. -/
theorem queryNearLocation_eq_filter (t : RTree) (x y r mp ma : ℚ) (mb : ℤ) :
    t.queryNearLocation x y r mp ma mb
      = (t.query ⟨x - r, y - r, x + r, y + r⟩).filter
          (fun prop => decide
            ((calculateDistance x y ((prop.bbox.x_min + prop.bbox.x_max) / 2)
                ((prop.bbox.y_min + prop.bbox.y_max) / 2) : ℚ) ≤ r ∧
              prop.price ≤ mp ∧ prop.area ≥ ma ∧ prop.bedrooms ≥ mb)) := by
  unfold RTree.queryNearLocation
  rw [foldl_push_eq_filter
    (fun prop : Property =>
      (calculateDistance x y ((prop.bbox.x_min + prop.bbox.x_max) / 2)
          ((prop.bbox.y_min + prop.bbox.y_max) / 2) : ℚ) ≤ r ∧
        prop.price ≤ mp ∧ prop.area ≥ ma ∧ prop.bedrooms ≥ mb)]
  simp

/-! ### Concrete listings used in witnesses and counterexamples -/

/-- A listing whose bbox is (10,10,20,20), inside the initial extent. -/
def pRound : Property := ⟨"A", 100, 50, 2, ⟨10, 10, 20, 20⟩⟩

/-- A listing whose bbox is (150,150,160,160), outside the initial extent. -/
def pFar : Property := ⟨"far", 0, 0, 0, ⟨150, 150, 160, 160⟩⟩

/-- A listing inside the initial extent. -/
def pIn : Property := ⟨"in", 0, 0, 0, ⟨10, 10, 20, 20⟩⟩

/-- A listing whose bbox is the point (4,4): its centroid lies at exact
Euclidean distance √32 ≈ 5.657 from the origin. -/
def pNear : Property := ⟨"near", 0, 0, 0, ⟨4, 4, 4, 4⟩⟩

/-! ### Claim theorems -/

/-- C3: `intersects` returns true iff the rectangles are not separated along
either axis by the boundary-inclusive comparison; in particular rectangles
touching at a corner, such as (0,0,1,1) and (1,1,2,2), intersect. -/
theorem intersects_iff_not_separated :
    (∀ a b : Rectangle, a.intersects b = true ↔
      ¬(a.x_min > b.x_max ∨ a.x_max < b.x_min ∨ a.y_min > b.y_max ∨ a.y_max < b.y_min)) ∧
    Rectangle.intersects ⟨0, 0, 1, 1⟩ ⟨1, 1, 2, 2⟩ = true := by
  constructor
  · intro a b
    simp [Rectangle.intersects]
    tauto
  · decide

/-- C8: `intersects` is symmetric, with no precondition on well-formedness of
the rectangles. -/
theorem intersects_symm (a b : Rectangle) : a.intersects b = b.intersects a := by
  simp only [Rectangle.intersects, gt_iff_lt]
  rw [Bool.eq_iff_iff]
  simp only [Bool.not_eq_true', Bool.or_eq_false_iff, decide_eq_false_iff_not]
  tauto

/-- C1: inserting a listing with bbox (10,10,20,20) into a fresh index makes it
returned by the range query (5,5,25,25) and not by the disjoint range query
(30,30,40,40). -/
theorem insert_query_roundtrip (p : Property) (h : p.bbox = ⟨10, 10, 20, 20⟩) :
    p ∈ (RTree.new.insert p).query ⟨5, 5, 25, 25⟩ ∧
    p ∉ (RTree.new.insert p).query ⟨30, 30, 40, 40⟩ := by
  have h1 : RTree.new.insert p = insertAll [p] := rfl
  rw [h1, insertAll_eq, query_leaf, query_leaf]
  rw [if_pos (by decide : (Rectangle.mk 0 0 100 100).intersects ⟨5, 5, 25, 25⟩ = true),
    if_pos (by decide : (Rectangle.mk 0 0 100 100).intersects ⟨30, 30, 40, 40⟩ = true)]
  have hin : (Rectangle.mk 5 5 25 25).intersects p.bbox = true := by rw [h]; decide
  have hout : (Rectangle.mk 30 30 40 40).intersects p.bbox = false := by rw [h]; decide
  simp [List.filter, hin, hout]

/-- Witness for C1 at the concrete listing `pRound`. -/
theorem insert_query_roundtrip_witness :
    pRound ∈ (RTree.new.insert pRound).query ⟨5, 5, 25, 25⟩ ∧
    pRound ∉ (RTree.new.insert pRound).query ⟨30, 30, 40, 40⟩ :=
  insert_query_roundtrip pRound rfl

/-- C4: a listing with bbox (150,150,160,160) inserted into a fresh index is
unreachable by the range query (140,140,170,170): the root bounding box stays
fixed at (0,0)-(100,100), that box does not intersect the range, and the query
therefore prunes immediately and returns the empty sequence. -/
theorem out_of_extent_unreachable (p : Property) (_h : p.bbox = ⟨150, 150, 160, 160⟩) :
    (RTree.new.insert p).root.bounding_box = ⟨0, 0, 100, 100⟩ ∧
    (Rectangle.mk 0 0 100 100).intersects ⟨140, 140, 170, 170⟩ = false ∧
    (RTree.new.insert p).query ⟨140, 140, 170, 170⟩ = [] := by
  have h1 : RTree.new.insert p = insertAll [p] := rfl
  rw [h1, insertAll_eq]
  refine ⟨rfl, by decide, ?_⟩
  rw [query_leaf, if_neg (by decide)]

/-- Witness for C4 at the concrete listing `pFar`. -/
theorem out_of_extent_unreachable_witness :
    (RTree.new.insert pFar).root.bounding_box = ⟨0, 0, 100, 100⟩ ∧
    (Rectangle.mk 0 0 100 100).intersects ⟨140, 140, 170, 170⟩ = false ∧
    (RTree.new.insert pFar).query ⟨140, 140, 170, 170⟩ = [] :=
  out_of_extent_unreachable pFar rfl

/-- C5 counterexample: the claim fails as stated. First, a listing whose bbox
(150,150,160,160) matches the query range (140,140,170,170) is nevertheless
absent from the query result (the root box prunes it), so the result does not
list exactly the matching listings. Second, inserting the same listing twice
makes the query return it twice, so a listing can appear more than once. -/
theorem query_exact_match_counterexample :
    ((Rectangle.mk 140 140 170 170).intersects pFar.bbox = true ∧
      (insertAll [pFar]).query ⟨140, 140, 170, 170⟩ = []) ∧
    ((insertAll [pIn, pIn]).query ⟨0, 0, 100, 100⟩).count pIn = 2 := by
  refine ⟨⟨by decide, ?_⟩, ?_⟩
  · rw [insertAll_eq, query_leaf, if_neg (by decide)]
  · rw [insertAll_eq, query_leaf, if_pos (by decide)]
    decide

/-- C5 (amended): for every sequence of inserted listings and every query
rectangle that intersects the fixed root bounding box (0,0)-(100,100), the
query result is exactly the matching listings in their original insertion
order; in particular, when the inserted listings are pairwise distinct each
listing appears at most once in the result. -/
theorem query_order_and_uniqueness (ls : List Property) (range : Rectangle)
    (h : (Rectangle.mk 0 0 100 100).intersects range = true) :
    (insertAll ls).query range = ls.filter (fun l => range.intersects l.bbox) ∧
    (ls.Nodup → ((insertAll ls).query range).Nodup) := by
  rw [insertAll_eq, query_leaf, if_pos h]
  exact ⟨rfl, fun hnd => hnd.filter _⟩

/-- Witness for C5's amended theorem at a concrete listing and range. -/
theorem query_order_and_uniqueness_witness :
    (Rectangle.mk 0 0 100 100).intersects ⟨0, 0, 100, 100⟩ = true ∧
    ((insertAll [pIn]).query ⟨0, 0, 100, 100⟩
        = List.filter (fun l => (Rectangle.mk 0 0 100 100).intersects l.bbox) [pIn] ∧
      ([pIn].Nodup → ((insertAll [pIn]).query ⟨0, 0, 100, 100⟩).Nodup)) :=
  ⟨by decide, query_order_and_uniqueness [pIn] ⟨0, 0, 100, 100⟩ (by decide)⟩

/-- C6: every public insert appends the listing to the root leaf's listing
sequence and changes nothing else: the root stays a leaf under the unchanged
bounding box (0,0)-(100,100), no earlier listing is removed or mutated, after
N inserts the index holds exactly the N inserted listings, and any query range
that meets the root box and every stored bbox returns all of them. -/
theorem insert_append_only (ls : List Property) (p : Property) :
    ((insertAll ls).insert p).root
        = RTreeNode.mk [] ((insertAll ls).root.leaf_properties ++ [p]) ⟨0, 0, 100, 100⟩ true ∧
    (insertAll ls).root.is_leaf = true ∧
    (insertAll ls).root.bounding_box = ⟨0, 0, 100, 100⟩ ∧
    (insertAll ls).root.leaf_properties = ls ∧
    (∀ range : Rectangle, (Rectangle.mk 0 0 100 100).intersects range = true →
      (∀ l ∈ ls, range.intersects l.bbox = true) →
      (insertAll ls).query range = ls) := by
  rw [insertAll_eq]
  refine ⟨?_, rfl, rfl, rfl, ?_⟩
  · simp [RTree.insert, RTreeNode.insert, RTreeNode.leaf_properties]
  · intro range hroot hall
    rw [query_leaf, if_pos hroot]
    exact List.filter_eq_self.mpr hall

/-- Witness for C6 at a concrete state, listing and range. -/
theorem insert_append_only_witness :
    ((insertAll [pIn]).insert pRound).root
        = RTreeNode.mk [] ((insertAll [pIn]).root.leaf_properties ++ [pRound])
            ⟨0, 0, 100, 100⟩ true ∧
    (insertAll [pIn]).root.is_leaf = true ∧
    (insertAll [pIn]).root.bounding_box = ⟨0, 0, 100, 100⟩ ∧
    (insertAll [pIn]).root.leaf_properties = [pIn] ∧
    (insertAll [pIn]).query ⟨0, 0, 100, 100⟩ = [pIn] :=
  let h := insert_append_only [pIn] pRound
  ⟨h.1, h.2.1, h.2.2.1, h.2.2.2.1,
    h.2.2.2.2 ⟨0, 0, 100, 100⟩ (by decide) (by decide)⟩

/-- C9: a later insert never removes, reorders or changes the previously
returned listings of a fixed range query: the query result after the insert is
the result before the insert, followed by the new listing exactly when it
survives the root-box pruning and matches the range. -/
theorem query_monotone_under_insert (ls : List Property) (p : Property) (range : Rectangle) :
    ((insertAll ls).insert p).query range
      = (insertAll ls).query range ++
        (if (Rectangle.mk 0 0 100 100).intersects range = true ∧
            range.intersects p.bbox = true then [p] else []) := by
  have h1 : (insertAll ls).insert p = insertAll (ls ++ [p]) := by
    rw [insertAll_eq]
    have h2 : insertAll (ls ++ [p])
        = ⟨.mk [] (ls ++ [p]) ⟨0, 0, 100, 100⟩ true⟩ := insertAll_eq (ls ++ [p])
    rw [h2]
    simp [RTree.insert, RTreeNode.insert]
  rw [h1, insertAll_eq (ls ++ [p]), insertAll_eq ls, query_leaf, query_leaf]
  cases hroot : (Rectangle.mk 0 0 100 100).intersects range with
  | false => simp [hroot]
  | true =>
    cases hp : range.intersects p.bbox with
    | false => simp [hroot, hp, List.filter_append]
    | true => simp [hroot, hp, List.filter_append]

/-- The embedded truncated distance agrees with the floor of the exact real
Euclidean distance: truncation toward zero of a nonnegative real is its floor,
and floor commutes with the square root as computed by `calculateDistance`. -/
theorem calculateDistance_eq_floor (x1 y1 x2 y2 : ℚ) :
    calculateDistance x1 y1 x2 y2
      = ⌊Real.sqrt (((x2 : ℝ) - x1) ^ 2 + ((y2 : ℝ) - y1) ^ 2)⌋ := by
  have hq0 : (0 : ℚ) ≤ (x2 - x1) ^ 2 + (y2 - y1) ^ 2 :=
    add_nonneg (sq_nonneg _) (sq_nonneg _)
  set q : ℚ := (x2 - x1) ^ 2 + (y2 - y1) ^ 2 with hq
  have hQ : ((x2 : ℝ) - x1) ^ 2 + ((y2 : ℝ) - y1) ^ 2 = ((q : ℚ) : ℝ) := by
    rw [hq]; push_cast; ring
  rw [hQ]
  have hflr : q.floor = ⌊q⌋ := by rw [Rat.floor_def', Rat.floor_def]
  have hfl0 : (0 : ℤ) ≤ ⌊q⌋ := Int.floor_nonneg.mpr hq0
  set m : ℕ := q.floor.toNat with hm
  have hmz : (m : ℤ) = ⌊q⌋ := by rw [hm, hflr, Int.toNat_of_nonneg hfl0]
  set k : ℕ := Nat.sqrt m with hk
  have hQ0 : (0 : ℝ) ≤ ((q : ℚ) : ℝ) := by exact_mod_cast hq0
  have hmq : ((m : ℚ)) ≤ q := by
    have := Int.floor_le q
    rw [← hmz] at this
    exact_mod_cast this
  have hqm : q < (m : ℚ) + 1 := by
    have := Int.lt_floor_add_one q
    rw [← hmz] at this
    exact_mod_cast this
  have hlow : ((k : ℝ)) ≤ Real.sqrt ((q : ℚ) : ℝ) := by
    rw [Real.le_sqrt (by positivity) hQ0]
    have h1 : (k : ℚ) ^ 2 ≤ (m : ℚ) := by exact_mod_cast Nat.sqrt_le' m
    have h2 : (k : ℚ) ^ 2 ≤ q := le_trans h1 hmq
    exact_mod_cast h2
  have hhigh : Real.sqrt ((q : ℚ) : ℝ) < (k : ℝ) + 1 := by
    rw [Real.sqrt_lt' (by positivity)]
    have h1 : (m : ℚ) + 1 ≤ ((k : ℚ) + 1) ^ 2 := by
      have h2 : (m + 1 : ℕ) ≤ (k + 1) ^ 2 := Nat.lt_succ_sqrt' m
      exact_mod_cast h2
    have h3 : q < ((k : ℚ) + 1) ^ 2 := lt_of_lt_of_le hqm h1
    exact_mod_cast h3
  have hfl : ⌊Real.sqrt ((q : ℚ) : ℝ)⌋ = (k : ℤ) := by
    rw [Int.floor_eq_iff]
    constructor
    · exact_mod_cast hlow
    · exact_mod_cast hhigh
  rw [hfl]
  rfl

/-- C2: for every index state, `queryNearLocation` equals the range query on
the square around the point, filtered to exactly the candidates whose
truncated centroid distance is within the radius and whose price, area and
bedrooms meet the thresholds, in the order the range query produced them. -/
theorem queryNear_refines_filtered_query (t : RTree) (x y r mp ma : ℚ) (mb : ℤ) :
    t.queryNearLocation x y r mp ma mb
      = (t.query ⟨x - r, y - r, x + r, y + r⟩).filter
          (fun prop => decide
            ((calculateDistance x y ((prop.bbox.x_min + prop.bbox.x_max) / 2)
                ((prop.bbox.y_min + prop.bbox.y_max) / 2) : ℚ) ≤ r ∧
              prop.price ≤ mp ∧ prop.area ≥ ma ∧ prop.bedrooms ≥ mb)) :=
  queryNearLocation_eq_filter t x y r mp ma mb

/-- C7: `calculateDistance` is the exact centroid distance truncated toward
zero to an integer; in particular a listing at true distance 4.9 is compared
as distance 4 (truncation, not rounding). -/
theorem distance_truncates :
    (∀ x1 y1 x2 y2 : ℚ, calculateDistance x1 y1 x2 y2
        = ⌊Real.sqrt (((x2 : ℝ) - x1) ^ 2 + ((y2 : ℝ) - y1) ^ 2)⌋) ∧
    Real.sqrt (((49/10 : ℝ) - 0) ^ 2 + ((0 : ℝ) - 0) ^ 2) = 49/10 ∧
    calculateDistance 0 0 (49/10) 0 = 4 := by
  refine ⟨calculateDistance_eq_floor, ?_, ?_⟩
  · have h1 : ((49/10 : ℝ) - 0) ^ 2 + ((0 : ℝ) - 0) ^ 2 = (49/10 : ℝ) ^ 2 := by norm_num
    rw [h1, Real.sqrt_sq (by norm_num)]
  · unfold calculateDistance
    have h1 : ((49/10 - 0 : ℚ) ^ 2 + (0 - 0 : ℚ) ^ 2) = 2401/100 := by norm_num
    rw [h1]
    have h2 : ((2401/100 : ℚ)).floor = ⌊(2401/100 : ℚ)⌋ := by
      rw [Rat.floor_def', Rat.floor_def]
    have h3 : ⌊(2401/100 : ℚ)⌋ = 24 := by
      rw [Int.floor_eq_iff]
      norm_num
    rw [h2, h3]
    have h4 : (24 : ℤ).toNat = 24 := rfl
    have h5 : Nat.sqrt 24 = 4 := (Nat.eq_sqrt'.mpr (by norm_num)).symm
    rw [h4, h5]
    rfl

/-- C10: the radius filter of `queryNearLocation` can admit a listing whose
exact centroid distance exceeds the radius: the listing `pNear`, with centroid
(4,4) at exact distance √32 > 5 from the origin, is returned by a radius-5
search because the truncated distance 5 passes the comparison. -/
theorem queryNear_admits_beyond_radius :
    (RTree.new.insert pNear).queryNearLocation 0 0 5 0 0 0 = [pNear] ∧
    (5 : ℝ) < Real.sqrt ((((pNear.bbox.x_min + pNear.bbox.x_max) / 2 - 0 : ℚ) : ℝ) ^ 2 +
        (((pNear.bbox.y_min + pNear.bbox.y_max) / 2 - 0 : ℚ) : ℝ) ^ 2) := by
  constructor
  · rw [queryNearLocation_eq_filter]
    have hsq : (⟨0 - 5, 0 - 5, 0 + 5, 0 + 5⟩ : Rectangle) = ⟨-5, -5, 5, 5⟩ := by
      simp [Rectangle.mk.injEq]
    rw [hsq]
    have hq : (RTree.new.insert pNear).query ⟨-5, -5, 5, 5⟩ = [pNear] := by
      have h1 : RTree.new.insert pNear = insertAll [pNear] := rfl
      rw [h1, insertAll_eq, query_leaf, if_pos (by decide)]
      decide
    rw [hq]
    have e1 : (pNear.bbox.x_min + pNear.bbox.x_max) / 2 = (4 : ℚ) := by norm_num [pNear]
    have e2 : (pNear.bbox.y_min + pNear.bbox.y_max) / 2 = (4 : ℚ) := by norm_num [pNear]
    have hd : calculateDistance 0 0 ((pNear.bbox.x_min + pNear.bbox.x_max) / 2)
        ((pNear.bbox.y_min + pNear.bbox.y_max) / 2) = 5 := by
      rw [e1, e2]
      unfold calculateDistance
      have h1 : ((4 - 0 : ℚ) ^ 2 + (4 - 0 : ℚ) ^ 2) = 32 := by norm_num
      rw [h1]
      have h2 : ((32 : ℚ)).floor = ⌊(32 : ℚ)⌋ := by rw [Rat.floor_def', Rat.floor_def]
      have h3 : ⌊(32 : ℚ)⌋ = 32 := by
        rw [Int.floor_eq_iff]
        norm_num
      have h5 : Nat.sqrt 32 = 5 := (Nat.eq_sqrt'.mpr (by norm_num)).symm
      rw [h2, h3]
      have h4 : (32 : ℤ).toNat = 32 := rfl
      rw [h4, h5]
      rfl
    have hcond : ((calculateDistance 0 0 ((pNear.bbox.x_min + pNear.bbox.x_max) / 2)
        ((pNear.bbox.y_min + pNear.bbox.y_max) / 2) : ℚ) ≤ 5 ∧ pNear.price ≤ 0 ∧
        pNear.area ≥ 0 ∧ pNear.bedrooms ≥ 0) := by
      rw [hd]
      exact ⟨by norm_num, by norm_num [pNear], by norm_num [pNear], by norm_num [pNear]⟩
    simp [List.filter, hcond]
  · have e1 : (((pNear.bbox.x_min + pNear.bbox.x_max) / 2 - 0 : ℚ) : ℝ) = 4 := by
      norm_num [pNear]
    have e2 : (((pNear.bbox.y_min + pNear.bbox.y_max) / 2 - 0 : ℚ) : ℝ) = 4 := by
      norm_num [pNear]
    rw [e1, e2]
    have h1 : (4 : ℝ) ^ 2 + (4 : ℝ) ^ 2 = 32 := by norm_num
    rw [h1, Real.lt_sqrt (by norm_num)]
    norm_num
